import Mathlib

/-!
Verification of the DAVISHACKS hands-free pointer-control core
(`eye_widget.py`, `hand_widget.py`).

The per-frame control logic is embedded shallowly:
* times, EAR values and normalized landmark coordinates become exact
  rationals (or reals where a Euclidean distance feeds back into the
  state), modelling Python float arithmetic by exact arithmetic;
* Python `int(...)` (truncation toward zero) becomes `pyInt` / `pyIntR`;
* the mutable widget state becomes explicit state records, and each
  frame handler becomes a pure state-transition function that also
  returns the list of pointer commands (`pyautogui` calls) it issues,
  in issue order.
-/

namespace DavisHacks

/-- Pointer commands issued to the OS driver (`pyautogui` calls). -/
inductive Cmd where
  | moveTo (x y : ℤ)
  | click
  | mouseDown
  | mouseUp
  | scroll (amount : ℤ)
  deriving DecidableEq, Repr

/-- Python `int(q)` on a rational: truncation toward zero. -/
def pyInt (q : ℚ) : ℤ := if 0 ≤ q then ⌊q⌋ else ⌈q⌉

/-- Python `int(x)` on a real: truncation toward zero. -/
noncomputable def pyIntR (x : ℝ) : ℤ := if 0 ≤ x then ⌊x⌋ else ⌈x⌉

/-- Comparison `np.hypot dx dy < t`, encoded by comparing squares.  For `0 ≤ t`
this is equivalent to `Real.sqrt (dx² + dy²) < t` (see
`hypotLt_iff_sqrt_lt`), and it keeps the hand controller computable. -/
def hypotLt (dx dy t : ℚ) : Bool := decide (dx * dx + dy * dy < t * t)

theorem hypotLt_iff_sqrt_lt (dx dy t : ℚ) (ht : 0 ≤ t) :
    hypotLt dx dy t = true ↔
      Real.sqrt ((dx : ℝ) * dx + (dy : ℝ) * dy) < (t : ℝ) := by
  rcases eq_or_lt_of_le ht with h0 | h0
  · constructor
    · intro h
      exfalso
      simp only [hypotLt, decide_eq_true_eq] at h
      rw [← h0] at h
      nlinarith [mul_self_nonneg dx, mul_self_nonneg dy]
    · intro h
      exfalso
      have : (0 : ℝ) ≤ Real.sqrt ((dx : ℝ) * dx + (dy : ℝ) * dy) :=
        Real.sqrt_nonneg _
      rw [← h0] at h
      push_cast at h
      linarith
  · have ht' : (0 : ℝ) < (t : ℝ) := by exact_mod_cast h0
    rw [Real.sqrt_lt' ht']
    simp only [hypotLt, decide_eq_true_eq]
    constructor
    · intro h
      have : ((dx * dx + dy * dy : ℚ) : ℝ) < ((t * t : ℚ) : ℝ) := by
        exact_mod_cast h
      push_cast at this
      nlinarith
    · intro h
      have : ((dx * dx + dy * dy : ℚ) : ℝ) < ((t * t : ℚ) : ℝ) := by
        push_cast
        nlinarith
      exact_mod_cast this

/-! ## Blink detector (`eye_widget.py`, `_update` lines 124-128)

```
if ear < self.blink_thresh and not self.is_blinking:
    self.is_blinking = True
elif ear >= self.blink_thresh and self.is_blinking:
    self.is_blinking = False
    self.last_blink = now
    ... (a BlinkEvent: the calibration / click branch runs)
```
-/

/-- One step of the blink state machine.  Returns the new `is_blinking`
flag and whether a blink event fired (the falling-edge branch ran). -/
def blinkStep {α : Type} [LinearOrder α] (thresh : α) (b : Bool) (ear : α) :
    Bool × Bool :=
  if ear < thresh ∧ b = false then (true, false)
  else if thresh ≤ ear ∧ b = true then (false, true)
  else (b, false)

/-- Run the blink state machine over a list of `(timestamp, EAR)` frames,
collecting the timestamps at which a blink event fires. -/
def blinkEventTimes {α : Type} [LinearOrder α] (thresh : α) :
    Bool → List (α × α) → List α
  | _, [] => []
  | b, f :: rest =>
      let s := blinkStep thresh b f.2
      (if s.2 then [f.1] else []) ++ blinkEventTimes thresh s.1 rest

/-! ## Calibration manager (`eye_widget.py`, `_update` lines 130-146) -/

/-- Calibration state of `EyeTrackerWidget` (fields `calibrated`,
`calibration_points`, `calibration_step`, `blink_times`);
the timestamp type `α` is ℚ or ℝ. -/
structure CalibState (α : Type) where
  calibrated : Bool
  points : List (ℚ × ℚ)
  step : ℕ
  blinkTimes : List α
  deriving Repr

/-- Python `self.blink_times.append(now)` followed by
`if len(self.blink_times) > 2: self.blink_times.pop(0)`. -/
def appendTrim {α : Type} (l : List α) (x : α) : List α :=
  let l2 := l ++ [x]
  if 2 < l2.length then l2.tail else l2

/-- The calibration branch run on each blink event while not calibrated
(lines 132-146).  `5` is `len(self.instructions)`.  Returns the new
state, whether a calibration point was captured, and whether the
`calibration_complete` signal was emitted. -/
def calibOnBlink {α : Type} [LinearOrderedField α] (w : α) (cs : CalibState α)
    (now : α) (iris : ℚ × ℚ) : CalibState α × Bool × Bool :=
  let bt := appendTrim cs.blinkTimes now
  match bt with
  | [t0, t1] =>
      if t1 - t0 < w then
        let pts := cs.points ++ [iris]
        let st := cs.step + 1
        if st < 5 then
          ({ cs with points := pts, step := st, blinkTimes := [] }, true, false)
        else
          ({ cs with points := pts, step := st, blinkTimes := [],
                     calibrated := true }, true, true)
      else ({ cs with blinkTimes := bt }, false, false)
  | _ => ({ cs with blinkTimes := bt }, false, false)

/-- The blink-event branch of `_update` as seen by the calibration
manager: while calibrated the calibration state is untouched (line 130's
`if not self.calibrated`; the `else` branch only clicks). -/
def calibProc {α : Type} [LinearOrderedField α] (w : α) (cs : CalibState α)
    (e : α × ℚ × ℚ) : CalibState α × Bool × Bool :=
  if cs.calibrated then (cs, false, false)
  else calibOnBlink w cs e.1 e.2

/-- Fold `calibProc` over a list of blink events `(now, iris)`,
counting emitted `calibration_complete` signals. -/
def calibRun {α : Type} [LinearOrderedField α] (w : α) :
    CalibState α → List (α × ℚ × ℚ) → CalibState α × ℕ
  | cs, [] => (cs, 0)
  | cs, e :: es =>
      let r := calibProc w cs e
      let rest := calibRun w r.1 es
      (rest.1, (if r.2.2 then 1 else 0) + rest.2)

/-! ## Gaze mapper (`eye_widget.py`, `_map` lines 90-100) -/

/-- Smallest x coordinate among the four calibration points
(`minx` in `_map`, line 92). -/
def calibMinX (p0 p1 p2 p3 : ℚ × ℚ) : ℚ :=
  min (min (min p0.1 p1.1) p2.1) p3.1

/-- Largest x coordinate among the four calibration points
(`maxx` in `_map`, line 92). -/
def calibMaxX (p0 p1 p2 p3 : ℚ × ℚ) : ℚ :=
  max (max (max p0.1 p1.1) p2.1) p3.1

/-- Smallest y coordinate among the four calibration points
(`miny` in `_map`, line 93). -/
def calibMinY (p0 p1 p2 p3 : ℚ × ℚ) : ℚ :=
  min (min (min p0.2 p1.2) p2.2) p3.2

/-- Largest y coordinate among the four calibration points
(`maxy` in `_map`, line 93). -/
def calibMaxY (p0 p1 p2 p3 : ℚ × ℚ) : ℚ :=
  max (max (max p0.2 p1.2) p2.2) p3.2

/-- The `_map` method: the pure gaze-to-screen mapping built from the first four
calibration points `p0 … p3`, screen size `(sw, sh)` and iris `(ix, iy)`. -/
def pymap (p0 p1 p2 p3 : ℚ × ℚ) (sw sh : ℕ) (ix iy : ℚ) : ℤ × ℤ :=
  let minx := min (min (min p0.1 p1.1) p2.1) p3.1
  let maxx := max (max (max p0.1 p1.1) p2.1) p3.1
  let miny := min (min (min p0.2 p1.2) p2.2) p3.2
  let maxy := max (max (max p0.2 p1.2) p2.2) p3.2
  let cx := max minx (min maxx ix)
  let cy := max miny (min maxy iy)
  let rx := if maxx ≠ minx then (cx - minx) / (maxx - minx) else 0.5
  let ry := if maxy ≠ miny then (cy - miny) / (maxy - miny) else 0.5
  (pyInt (rx * ((sw : ℚ) - 1)), pyInt (ry * ((sh : ℚ) - 1)))

/-! ## Gaze smoother / dwell-click engine (`eye_widget.py`, lines 152-170) -/

/-- Configuration of the eye pipeline (`__init__` defaults:
`blink_thresh = 0.21`, `double_window = 0.5`, `ignore_after_blink = 0.3`,
`move_thr = 20`, `alpha = 0.3`, `dwell = 1.0`; `pyautogui.size()`). -/
structure EyeCfg where
  blinkThresh : ℝ
  doubleWindow : ℝ
  ignoreAfterBlink : ℝ
  moveThr : ℝ
  alpha : ℝ
  dwell : ℝ
  screenW : ℕ
  screenH : ℕ

/-- Full mutable state of `EyeTrackerWidget` touched by `_update`. -/
structure EyeState where
  calib : CalibState ℝ
  isBlinking : Bool
  lastBlink : ℝ
  smoothed : Option (ℤ × ℤ)
  dwellTs : ℝ
  lastClick : ℝ

/-- Python `dist = (dx*dx + dy*dy)**0.5` with `dx, dy` the per-axis offsets
from the smoothed position `sm` to the mapped target `t` (line 158-159). -/
noncomputable def gazeDist (sm t : ℤ × ℤ) : ℝ :=
  Real.sqrt ((((t.1 - sm.1) * (t.1 - sm.1) + (t.2 - sm.2) * (t.2 - sm.2) : ℤ) : ℝ))

/-- Lines 155-170 of `_update`: the smoothing / dwell-click engine run on
one calibrated, post-blink-guard frame with timestamp `now` and mapped
target `t`. -/
noncomputable def dwellUpdate (cfg : EyeCfg) (s : EyeState) (now : ℝ)
    (t : ℤ × ℤ) : EyeState × List Cmd :=
  match s.smoothed with
  | none => ({ s with smoothed := some t, dwellTs := now }, [])
  | some sm =>
      if gazeDist sm t < cfg.moveThr then
        if now - s.dwellTs > cfg.dwell ∧ now - s.lastClick > cfg.dwell then
          ({ s with lastClick := now }, [Cmd.click])
        else (s, [])
      else
        let a := min 0.85 (max cfg.alpha (gazeDist sm t / 300))
        let sx := pyIntR (a * (t.1 : ℝ) + (1 - a) * (sm.1 : ℝ))
        let sy := pyIntR (a * (t.2 : ℝ) + (1 - a) * (sm.2 : ℝ))
        ({ s with dwellTs := now, smoothed := some (sx, sy) },
         [Cmd.moveTo sx sy])

/-- Run the dwell engine over a list of frames `(now, target)`, recording
for each frame the state it was processed in, the frame itself, and the
commands it issued. -/
noncomputable def dwellRun (cfg : EyeCfg) :
    EyeState → List (ℝ × ℤ × ℤ) → List (EyeState × (ℝ × ℤ × ℤ) × List Cmd)
  | _, [] => []
  | s, f :: fs =>
      let r := dwellUpdate cfg s f.1 f.2
      (s, f, r.2) :: dwellRun cfg r.1 fs

/-- A dwell-trace entry whose frame found the cursor settled: a smoothed
position exists and its distance to the frame's target is below
`move_thr`. -/
def SettledStep (cfg : EyeCfg) (e : EyeState × (ℝ × ℤ × ℤ) × List Cmd) : Prop :=
  ∃ sm, e.1.smoothed = some sm ∧ gazeDist sm e.2.1.2 < cfg.moveThr

/-! ## The whole per-frame eye handler (`_update`, lines 117-170) -/

/-- One tick of `_update` on a frame where a face was found, with
timestamp `now`, mean EAR `ear` and normalized iris position `iris`.
Returns the new state, the pointer commands issued (in order), and
whether `calibration_complete` was emitted.  When calibrated the mapped
target is built from the first four calibration points; a calibrated
state always has ≥ 4 points, so the fallthrough `| _` branch is
unreachable there. -/
noncomputable def eyeUpdate (cfg : EyeCfg) (s : EyeState) (now ear : ℝ)
    (iris : ℚ × ℚ) : EyeState × List Cmd × Bool :=
  let br := blinkStep cfg.blinkThresh s.isBlinking ear
  let s1 : EyeState :=
    if br.2 then
      if s.calib.calibrated then
        { s with isBlinking := br.1, lastBlink := now }
      else
        { s with isBlinking := br.1, lastBlink := now,
                 calib := (calibOnBlink cfg.doubleWindow s.calib now iris).1 }
    else { s with isBlinking := br.1 }
  let cmds1 : List Cmd := if br.2 ∧ s.calib.calibrated then [Cmd.click] else []
  let signal : Bool :=
    if br.2 ∧ s.calib.calibrated = false then
      (calibOnBlink cfg.doubleWindow s.calib now iris).2.2
    else false
  if s1.calib.calibrated ∧ now - s1.lastBlink > cfg.ignoreAfterBlink then
    match s1.calib.points with
    | p0 :: p1 :: p2 :: p3 :: _ =>
        let t := pymap p0 p1 p2 p3 cfg.screenW cfg.screenH iris.1 iris.2
        let r := dwellUpdate cfg s1 now t
        (r.1, cmds1 ++ r.2, signal)
    | _ => (s1, cmds1, signal)
  else (s1, cmds1, signal)

/-! ## Hand gesture controller (`hand_widget.py`) -/

/-- The `ClickController` state (`__init__`: `down = False`, `thresh = 40`,
`scroll_mode = False`, `last_y = None`). -/
structure ClickController where
  down : Bool
  thresh : ℚ
  scroll_mode : Bool
  last_y : Option ℚ
  deriving DecidableEq, Repr

def ClickController.initial : ClickController :=
  { down := false, thresh := 40, scroll_mode := false, last_y := none }

/-- Method `ClickController.update` (lines 19-28): single-threshold pinch click
on the pixel distance between thumb tip and index tip. -/
def ClickController.update (s : ClickController)
    (thumb_pos index_pos : ℤ × ℤ) : ClickController × List Cmd :=
  let dn := hypotLt ((thumb_pos.1 - index_pos.1 : ℤ) : ℚ)
                    ((thumb_pos.2 - index_pos.2 : ℤ) : ℚ) s.thresh
  let prev := s.down
  let s2 := { s with down := dn }
  if dn = true ∧ prev = false then (s2, [Cmd.mouseDown])
  else if dn = false ∧ prev = true then (s2, [Cmd.mouseUp])
  else (s2, [])

/-- Method `ClickController.update_with_landmarks` (lines 34-79): click
detection followed by index/middle pinch scrolling.  `tp`, `ip` are the
thumb/index pixel positions, `p8`, `p12` the normalized index and middle
fingertips. -/
def ClickController.update_with_landmarks (s : ClickController)
    (tp ip : ℤ × ℤ) (p8 p12 : ℚ × ℚ) : ClickController × List Cmd :=
  let r := s.update tp ip
  let s1 := r.1
  let cmds := r.2
  if hypotLt (p8.1 - p12.1) (p8.2 - p12.2) 0.05 then
    match s1.last_y with
    | none =>
        ({ s1 with last_y := some ((p8.2 + p12.2) / 2), scroll_mode := true },
         cmds ++ (if s1.down then [Cmd.mouseUp] else []))
    | some ly =>
        let current_y := (p8.2 + p12.2) / 2
        let scroll_amount := pyInt ((current_y - ly) * 100)
        ({ s1 with last_y := some current_y, scroll_mode := true },
         cmds ++ (if 1 < |scroll_amount| then [Cmd.scroll (-scroll_amount)] else [])
              ++ (if s1.down then [Cmd.mouseUp] else []))
  else
    let restore := if s1.scroll_mode = true ∧ s1.down = true
                   then [Cmd.mouseDown] else []
    if s1.scroll_mode then
      ({ s1 with scroll_mode := false, last_y := none }, cmds ++ restore)
    else (s1, cmds ++ restore)

/-- Method `_frame` lines 153-155: when no left hand is found the controller is
driven with the synthetic pose `(0,0)`, `(9999,9999)`. -/
def noHandTick (s : ClickController) : ClickController × List Cmd :=
  s.update (0, 0) (9999, 9999)

/-! ## Basic helper lemmas -/

theorem pyInt_intCast (n : ℤ) : pyInt (n : ℚ) = n := by
  unfold pyInt
  split
  · exact Int.floor_intCast n
  · exact Int.ceil_intCast n

theorem pyInt_nonneg {q : ℚ} (h : 0 ≤ q) : 0 ≤ pyInt q := by
  unfold pyInt
  rw [if_pos h]
  exact Int.floor_nonneg.mpr h

theorem pyInt_nonpos {q : ℚ} (h : q ≤ 0) : pyInt q ≤ 0 := by
  unfold pyInt
  split
  · next h0 =>
      have hq : q = 0 := le_antisymm h h0
      simp [hq]
  · exact Int.ceil_le.mpr (by exact_mod_cast h)

/-! ## Claim theorems -/

/-- Claim C1: the blink state machine enters BLINKING exactly when
`EAR < threshold` and leaves it exactly when `EAR ≥ threshold`, emitting
a blink event exactly on the falling-edge (BLINKING → NOT_BLINKING)
transition and never on the rising edge; the EAR trace
`[0.25, 0.15, 0.15, 0.25]` at times `[0, 1, 2, 3]` with threshold `0.21`
yields exactly one event, at `t = 3`. -/
theorem C1_blink_state_machine :
    (∀ (thresh ear : ℚ) (b : Bool),
      blinkStep thresh b ear = (decide (ear < thresh), b && decide (thresh ≤ ear)))
    ∧ blinkEventTimes (0.21 : ℚ) false
        [(0, 0.25), (1, 0.15), (2, 0.15), (3, 0.25)] = [3] := by
  constructor
  · intro thresh ear b
    rcases lt_or_le ear thresh with h | h
    · have h' : ¬ thresh ≤ ear := not_le.mpr h
      cases b <;> simp [blinkStep, h, h']
    · have h' : ¬ ear < thresh := not_lt.mpr h
      cases b <;> simp [blinkStep, h, h']
  · norm_num [blinkEventTimes, blinkStep]

/-- Claim C3: with a non-degenerate bounding box from the first four
calibration points, `_map` clamps the iris into the box, takes the
per-axis ratios, and scales by `(screenW - 1, screenH - 1)` with integer
truncation and no axis inversion; the four box corners map to the four
screen corners, and with corners `(0.3,0.3) … (0.3,0.7)` an iris at
`(0.5,0.5)` maps to the screen center pixel. -/
theorem C3_gaze_mapper (p0 p1 p2 p3 : ℚ × ℚ) (sw sh : ℕ) (ix iy : ℚ)
    (hx : calibMinX p0 p1 p2 p3 < calibMaxX p0 p1 p2 p3)
    (hy : calibMinY p0 p1 p2 p3 < calibMaxY p0 p1 p2 p3) :
    (pymap p0 p1 p2 p3 sw sh ix iy =
       (pyInt ((max (calibMinX p0 p1 p2 p3) (min (calibMaxX p0 p1 p2 p3) ix)
                  - calibMinX p0 p1 p2 p3)
                / (calibMaxX p0 p1 p2 p3 - calibMinX p0 p1 p2 p3)
                * ((sw : ℚ) - 1)),
        pyInt ((max (calibMinY p0 p1 p2 p3) (min (calibMaxY p0 p1 p2 p3) iy)
                  - calibMinY p0 p1 p2 p3)
                / (calibMaxY p0 p1 p2 p3 - calibMinY p0 p1 p2 p3)
                * ((sh : ℚ) - 1))))
    ∧ pymap p0 p1 p2 p3 sw sh (calibMinX p0 p1 p2 p3) (calibMinY p0 p1 p2 p3)
        = (0, 0)
    ∧ pymap p0 p1 p2 p3 sw sh (calibMaxX p0 p1 p2 p3) (calibMinY p0 p1 p2 p3)
        = ((sw : ℤ) - 1, 0)
    ∧ pymap p0 p1 p2 p3 sw sh (calibMaxX p0 p1 p2 p3) (calibMaxY p0 p1 p2 p3)
        = ((sw : ℤ) - 1, (sh : ℤ) - 1)
    ∧ pymap p0 p1 p2 p3 sw sh (calibMinX p0 p1 p2 p3) (calibMaxY p0 p1 p2 p3)
        = (0, (sh : ℤ) - 1)
    ∧ pymap (0.3, 0.3) (0.7, 0.3) (0.7, 0.7) (0.3, 0.7) sw sh 0.5 0.5 =
        (pyInt (((sw : ℚ) - 1) / 2), pyInt (((sh : ℚ) - 1) / 2)) := by
  simp only [calibMinX, calibMaxX, calibMinY, calibMaxY] at hx hy ⊢
  have hxne : max (max (max p0.1 p1.1) p2.1) p3.1
      ≠ min (min (min p0.1 p1.1) p2.1) p3.1 := ne_of_gt hx
  have hyne : max (max (max p0.2 p1.2) p2.2) p3.2
      ≠ min (min (min p0.2 p1.2) p2.2) p3.2 := ne_of_gt hy
  have hxle : min (min (min p0.1 p1.1) p2.1) p3.1
      ≤ max (max (max p0.1 p1.1) p2.1) p3.1 := le_of_lt hx
  have hyle : min (min (min p0.2 p1.2) p2.2) p3.2
      ≤ max (max (max p0.2 p1.2) p2.2) p3.2 := le_of_lt hy
  have hpy0 : pyInt 0 = 0 := by norm_num [pyInt]
  have hpysw : pyInt ((sw : ℚ) - 1) = (sw : ℤ) - 1 := by
    rw [show ((sw : ℚ) - 1) = (((sw : ℤ) - 1 : ℤ) : ℚ) by push_cast; ring,
      pyInt_intCast]
  have hpysh : pyInt ((sh : ℚ) - 1) = (sh : ℤ) - 1 := by
    rw [show ((sh : ℚ) - 1) = (((sh : ℤ) - 1 : ℤ) : ℚ) by push_cast; ring,
      pyInt_intCast]
  refine ⟨?_, ?_, ?_, ?_, ?_, ?_⟩
  · simp only [pymap, if_pos hxne, if_pos hyne]
  · simp only [pymap, if_pos hxne, if_pos hyne,
      min_eq_right hxle, max_self, min_eq_right hyle,
      sub_self, zero_div, zero_mul, hpy0]
  · simp only [pymap, if_pos hxne, if_pos hyne,
      min_self, max_eq_right hxle, min_eq_right hyle, max_self,
      sub_self, zero_div, zero_mul, hpy0,
      div_self (sub_ne_zero.mpr hxne), one_mul, hpysw]
  · simp only [pymap, if_pos hxne, if_pos hyne, min_self,
      max_eq_right hxle, max_eq_right hyle,
      div_self (sub_ne_zero.mpr hxne), div_self (sub_ne_zero.mpr hyne),
      one_mul, hpysw, hpysh]
  · simp only [pymap, if_pos hxne, if_pos hyne, min_self,
      min_eq_right hxle, max_self, max_eq_right hyle,
      sub_self, zero_div, zero_mul, hpy0,
      div_self (sub_ne_zero.mpr hyne), one_mul, hpysh]
  · simp only [pymap]
    norm_num [min_def, max_def]
    constructor
    · congr 1
      ring
    · congr 1
      ring

/-- Claim C9: when the calibration bounding box has zero span on the x
axis the mapped ratio defaults to `0.5` (and symmetrically for y), so
`_map` is total and never divides by a zero span. -/
theorem C9_degenerate_axis (p0 p1 p2 p3 : ℚ × ℚ) (sw sh : ℕ) (ix iy : ℚ) :
    (max (max (max p0.1 p1.1) p2.1) p3.1 = min (min (min p0.1 p1.1) p2.1) p3.1 →
      (pymap p0 p1 p2 p3 sw sh ix iy).1 = pyInt (0.5 * ((sw : ℚ) - 1)))
    ∧ (max (max (max p0.2 p1.2) p2.2) p3.2 = min (min (min p0.2 p1.2) p2.2) p3.2 →
      (pymap p0 p1 p2 p3 sw sh ix iy).2 = pyInt (0.5 * ((sh : ℚ) - 1))) := by
  constructor
  · intro h
    simp only [pymap, h, ne_eq, not_true_eq_false, if_false, ite_not]
  · intro h
    simp only [pymap, h, ne_eq, not_true_eq_false, if_false, ite_not]

/-- Claim C9 witness: a concrete degenerate calibration. -/
theorem C9_degenerate_axis_witness :
    (pymap (0.3, 0.2) (0.3, 0.4) (0.3, 0.6) (0.3, 0.8) 1920 1080 0.9 0.5).1 =
      pyInt (0.5 * ((1920 : ℚ) - 1)) :=
  (C9_degenerate_axis (0.3, 0.2) (0.3, 0.4) (0.3, 0.6) (0.3, 0.8)
      1920 1080 0.9 0.5).1 (by norm_num)

/-- Claim C3 witness: the spec example corners, a 1920×1080 screen, iris at
the center of the calibration box. -/
theorem C3_gaze_mapper_witness :
    pymap (0.3, 0.3) (0.7, 0.3) (0.7, 0.7) (0.3, 0.7) 1920 1080 0.5 0.5 =
      (959, 539) := by
  have h := C3_gaze_mapper (0.3, 0.3) (0.7, 0.3) (0.7, 0.7) (0.3, 0.7)
    1920 1080 0.5 0.5
  have h2 := h (by norm_num [calibMinX, calibMaxX, min_def, max_def])
    (by norm_num [calibMinY, calibMaxY, min_def, max_def])
  rw [h2.2.2.2.2.2]
  norm_num [pyInt, Int.floor_eq_iff]

/-- Helper: every blink event while uncalibrated either captures a point
(the trimmed buffer is a close pair) with the step counter advanced, or
leaves points and step alone. -/
theorem calibOnBlink_cases {α : Type} [LinearOrderedField α] (w : α)
    (cs : CalibState α) (now : α) (iris : ℚ × ℚ) :
    (∃ t0 t1, appendTrim cs.blinkTimes now = [t0, t1] ∧ t1 - t0 < w ∧
      calibOnBlink w cs now iris =
        (if cs.step + 1 < 5 then
          ({ cs with points := cs.points ++ [iris], step := cs.step + 1,
                     blinkTimes := [] }, true, false)
        else
          ({ cs with points := cs.points ++ [iris], step := cs.step + 1,
                     blinkTimes := [], calibrated := true }, true, true)))
    ∨ ((∀ t0 t1, appendTrim cs.blinkTimes now = [t0, t1] → ¬ t1 - t0 < w) ∧
       calibOnBlink w cs now iris =
         ({ cs with blinkTimes := appendTrim cs.blinkTimes now }, false, false)) := by
  rcases hbt : appendTrim cs.blinkTimes now with _ | ⟨a, _ | ⟨b, _ | ⟨c, l⟩⟩⟩
  · right
    refine ⟨?_, by simp [calibOnBlink, hbt]⟩
    intro t0 t1 ht
    simp at ht
  · right
    refine ⟨?_, by simp [calibOnBlink, hbt]⟩
    intro t0 t1 ht
    simp at ht
  · by_cases hw : b - a < w
    · left
      exact ⟨a, b, rfl, hw, by simp [calibOnBlink, hbt, hw]⟩
    · right
      refine ⟨?_, by simp [calibOnBlink, hbt, hw]⟩
      intro t0 t1 ht
      injection ht with h1 h2
      injection h2 with h2 _
      subst h1
      subst h2
      exact hw
  · right
    refine ⟨?_, by simp [calibOnBlink, hbt]⟩
    intro t0 t1 ht
    simp at ht

/-- Helper: the blink-time buffer stays at most 2 long and keeps only
the most recent timestamps. -/
theorem appendTrim_spec {α : Type} (l : List α) (x : α) (h : l.length ≤ 2) :
    (appendTrim l x).length ≤ 2 ∧ (appendTrim l x).IsSuffix (l ++ [x]) := by
  unfold appendTrim
  rcases l with _ | ⟨a, _ | ⟨b, _ | ⟨c, t⟩⟩⟩
  · simp
  · simp
  · refine ⟨by simp, ?_⟩
    simp only [List.length_append, List.length_cons, List.length_nil]
    norm_num
  · simp at h

/-- Claim C4: while uncalibrated, each blink event's timestamp is
appended to the buffer trimmed to the 2 most recent, and exactly when
the trimmed buffer holds two timestamps less than `double_window` apart
the buffer is cleared and the current iris is captured as the next
calibration point with the step counter advanced; in particular two
events at `t0, t1` with `t1 - t0 < double_window` from an empty buffer
capture exactly one point, at the second event. -/
theorem C4_double_blink_capture {α : Type} [LinearOrderedField α] (w : α) :
    (∀ (cs : CalibState α) (now : α) (iris : ℚ × ℚ),
      ((calibOnBlink w cs now iris).2.1 = true ↔
        ∃ t0 t1, appendTrim cs.blinkTimes now = [t0, t1] ∧ t1 - t0 < w)
      ∧ ((calibOnBlink w cs now iris).2.1 = true →
          (calibOnBlink w cs now iris).1.points = cs.points ++ [iris]
          ∧ (calibOnBlink w cs now iris).1.step = cs.step + 1
          ∧ (calibOnBlink w cs now iris).1.blinkTimes = [])
      ∧ ((calibOnBlink w cs now iris).2.1 = false →
          (calibOnBlink w cs now iris).1.points = cs.points
          ∧ (calibOnBlink w cs now iris).1.step = cs.step
          ∧ (calibOnBlink w cs now iris).1.blinkTimes = appendTrim cs.blinkTimes now
          ∧ (calibOnBlink w cs now iris).2.2 = false
          ∧ (calibOnBlink w cs now iris).1.calibrated = cs.calibrated)
      ∧ (cs.blinkTimes.length ≤ 2 →
          (appendTrim cs.blinkTimes now).length ≤ 2
          ∧ (appendTrim cs.blinkTimes now).IsSuffix (cs.blinkTimes ++ [now])))
    ∧ (∀ (cs : CalibState α) (t0 t1 : α) (iris0 iris1 : ℚ × ℚ),
        cs.blinkTimes = [] → t1 - t0 < w →
        (calibOnBlink w cs t0 iris0).2.1 = false
        ∧ (calibOnBlink w cs t0 iris0).1.points = cs.points
        ∧ (calibOnBlink w (calibOnBlink w cs t0 iris0).1 t1 iris1).2.1 = true
        ∧ (calibOnBlink w (calibOnBlink w cs t0 iris0).1 t1 iris1).1.points
            = cs.points ++ [iris1]
        ∧ (calibOnBlink w (calibOnBlink w cs t0 iris0).1 t1 iris1).1.blinkTimes
            = []) := by
  constructor
  · intro cs now iris
    rcases calibOnBlink_cases w cs now iris with
      ⟨t0, t1, hbt, hw, heq⟩ | ⟨hno, heq⟩
    · rw [heq]
      refine ⟨iff_of_true (by split_ifs <;> rfl) ⟨t0, t1, hbt, hw⟩, ?_, ?_,
        fun hl => appendTrim_spec cs.blinkTimes now hl⟩
      · intro _
        split_ifs <;> exact ⟨rfl, rfl, rfl⟩
      · intro hfalse
        exfalso
        revert hfalse
        split_ifs <;> simp
    · rw [heq]
      refine ⟨?_, ?_, ?_, fun hl => appendTrim_spec cs.blinkTimes now hl⟩
      · simp only [Bool.false_eq_true, false_iff]
        rintro ⟨t0, t1, hbt, hw⟩
        exact hno t0 t1 hbt hw
      · intro hfalse
        simp at hfalse
      · intro _
        simp
  · intro cs t0 t1 iris0 iris1 hbt hw
    have h0 : appendTrim cs.blinkTimes t0 = [t0] := by
      simp [appendTrim, hbt]
    have heq0 : calibOnBlink w cs t0 iris0 =
        ({ cs with blinkTimes := [t0] }, false, false) := by
      simp [calibOnBlink, h0]
    have h1 : appendTrim ({ cs with blinkTimes := [t0] } :
        CalibState α).blinkTimes t1 = [t0, t1] := by
      simp [appendTrim]
    rw [heq0]
    have heq1 := calibOnBlink_cases w ({ cs with blinkTimes := [t0] }) t1 iris1
    rcases heq1 with ⟨a, b, hbt1, hw1, heq1⟩ | ⟨hno, _⟩
    · rw [h1] at hbt1
      injection hbt1 with e1 e2
      injection e2 with e2 _
      subst e1
      subst e2
      rw [heq1]
      split_ifs <;> simp
    · exact absurd hw (hno t0 t1 h1)

/-- Helper: once calibrated, the blink-event branch leaves the
calibration state untouched and emits nothing. -/
theorem calibRun_of_calibrated {α : Type} [LinearOrderedField α] (w : α)
    (cs : CalibState α) (es : List (α × ℚ × ℚ)) (h : cs.calibrated = true) :
    calibRun w cs es = (cs, 0) := by
  induction es with
  | nil => rfl
  | cons e es ih => simp [calibRun, calibProc, h, ih]

/-- Helper: a completion signal makes the state calibrated. -/
theorem calibProc_signal_calibrated {α : Type} [LinearOrderedField α] (w : α)
    (cs : CalibState α) (e : α × ℚ × ℚ)
    (h : (calibProc w cs e).2.2 = true) :
    (calibProc w cs e).1.calibrated = true := by
  by_cases hc : cs.calibrated
  · simp [calibProc, hc] at h
  · simp only [calibProc, hc, Bool.false_eq_true, if_false] at h ⊢
    rcases calibOnBlink_cases w cs e.1 e.2 with
      ⟨t0, t1, _, _, heq⟩ | ⟨_, heq⟩
    · rw [heq] at h ⊢
      split_ifs at h ⊢ <;> simp_all
    · rw [heq] at h
      simp at h

/-- Helper: no signal leaves the calibrated flag unchanged. -/
theorem calibProc_nosignal_calibrated {α : Type} [LinearOrderedField α] (w : α)
    (cs : CalibState α) (e : α × ℚ × ℚ)
    (h : (calibProc w cs e).2.2 = false) :
    (calibProc w cs e).1.calibrated = cs.calibrated := by
  by_cases hc : cs.calibrated
  · simp [calibProc, hc]
  · simp only [calibProc, hc, Bool.false_eq_true, if_false] at h ⊢
    rcases calibOnBlink_cases w cs e.1 e.2 with
      ⟨t0, t1, _, _, heq⟩ | ⟨_, heq⟩
    · rw [heq] at h ⊢
      split_ifs at h ⊢ <;> simp_all
    · rw [heq]
      simp [hc]

/-- Helper: over any event list the completion signal fires at most once. -/
theorem calibRun_signal_le_one {α : Type} [LinearOrderedField α] (w : α) :
    ∀ (es : List (α × ℚ × ℚ)) (cs : CalibState α), (calibRun w cs es).2 ≤ 1 := by
  intro es
  induction es with
  | nil => intro cs; simp [calibRun]
  | cons e es ih =>
      intro cs
      simp only [calibRun]
      cases hsig : (calibProc w cs e).2.2 with
      | false => simpa using ih (calibProc w cs e).1
      | true =>
          have hcal := calibProc_signal_calibrated w cs e hsig
          rw [calibRun_of_calibrated w _ es hcal]
          simp

/-- Helper: starting uncalibrated, the signal count is 1 exactly when the
run ends calibrated. -/
theorem calibRun_signal_iff {α : Type} [LinearOrderedField α] (w : α) :
    ∀ (es : List (α × ℚ × ℚ)) (cs : CalibState α), cs.calibrated = false →
      ((calibRun w cs es).2 = 1 ↔ (calibRun w cs es).1.calibrated = true) := by
  intro es
  induction es with
  | nil =>
      intro cs h
      simp [calibRun, h]
  | cons e es ih =>
      intro cs h
      simp only [calibRun]
      cases hsig : (calibProc w cs e).2.2 with
      | false =>
          have hcal := calibProc_nosignal_calibrated w cs e hsig
          rw [h] at hcal
          simpa using ih (calibProc w cs e).1 hcal
      | true =>
          have hcal := calibProc_signal_calibrated w cs e hsig
          rw [calibRun_of_calibrated w _ es hcal]
          simp [hcal]

/-- Claim C5: while uncalibrated with at most 4 points captured, a blink
event emits the completion signal exactly when it captures a point and
the step counter reaches 5, and the signal makes the state CALIBRATED;
while CALIBRATED the blink-event branch captures nothing and never
re-emits; over any event sequence the signal fires at most once, and
from the initial uncalibrated state it fires exactly once when the run
ends calibrated. -/
theorem C5_fifth_point_completes {α : Type} [LinearOrderedField α] (w : α) :
    (∀ (cs : CalibState α) (now : α) (iris : ℚ × ℚ),
      cs.calibrated = false → cs.step ≤ 4 →
      (((calibOnBlink w cs now iris).2.2 = true ↔
          (calibOnBlink w cs now iris).2.1 = true
          ∧ (calibOnBlink w cs now iris).1.step = 5)
      ∧ ((calibOnBlink w cs now iris).2.2 = true →
          (calibOnBlink w cs now iris).1.calibrated = true)
      ∧ ((calibOnBlink w cs now iris).2.2 = false →
          (calibOnBlink w cs now iris).1.calibrated = false)))
    ∧ (∀ (cs : CalibState α) (e : α × ℚ × ℚ), cs.calibrated = true →
        calibProc w cs e = (cs, false, false))
    ∧ (∀ (cs : CalibState α) (es : List (α × ℚ × ℚ)),
        (calibRun w cs es).2 ≤ 1)
    ∧ (∀ (cs : CalibState α) (es : List (α × ℚ × ℚ)), cs.calibrated = false →
        ((calibRun w cs es).2 = 1 ↔ (calibRun w cs es).1.calibrated = true)) := by
  refine ⟨?_, ?_, fun cs es => calibRun_signal_le_one w es cs,
    fun cs es h => calibRun_signal_iff w es cs h⟩
  · intro cs now iris hc hstep
    rcases calibOnBlink_cases w cs now iris with
      ⟨t0, t1, hbt, hw, heq⟩ | ⟨hno, heq⟩
    · rw [heq]
      by_cases h5 : cs.step + 1 < 5
      · rw [if_pos h5]
        refine ⟨?_, by intro hfalse; simp at hfalse, by intro _; exact hc⟩
        simp only [Bool.false_eq_true, false_iff]
        rintro ⟨-, hs⟩
        simp at hs
        omega
      · rw [if_neg h5]
        have h5' : cs.step + 1 = 5 := by omega
        refine ⟨?_, by intro _; rfl, by intro hfalse; simp at hfalse⟩
        simp [h5']
    · rw [heq]
      refine ⟨?_, by intro hfalse; simp at hfalse, by intro _; exact hc⟩
      simp
  · intro cs e hc
    simp [calibProc, hc]

/-- Claim C4 witness: window `0.5`, an empty buffer, blinks at `0` and
`0.3`: the second event captures exactly one point. -/
theorem C4_double_blink_capture_witness :
    ((calibOnBlink ((1 : ℚ)/2) ((calibOnBlink ((1 : ℚ)/2)
        ⟨false, [], 0, []⟩ 0 (1/2, 1/2)).1) (3/10) (3/10, 3/10)).2.1 = true)
    ∧ ((calibOnBlink ((1 : ℚ)/2) ((calibOnBlink ((1 : ℚ)/2)
        ⟨false, [], 0, []⟩ 0 (1/2, 1/2)).1) (3/10) (3/10, 3/10)).1.points
      = [(3/10, 3/10)]) := by
  have h := (C4_double_blink_capture ((1 : ℚ)/2)).2
      ⟨false, [], 0, []⟩ 0 (3/10) (1/2, 1/2) (3/10, 3/10) rfl (by norm_num)
  refine ⟨h.2.2.1, ?_⟩
  rw [h.2.2.2.1]
  simp

/-- A demonstration event list: five double blinks while uncalibrated. -/
def calibDemoEvents : List (ℚ × ℚ × ℚ) :=
  [(0, 0.3, 0.3), (0.1, 0.3, 0.3), (1, 0.7, 0.3), (1.1, 0.7, 0.3),
   (2, 0.7, 0.7), (2.1, 0.7, 0.7), (3, 0.3, 0.7), (3.1, 0.3, 0.7),
   (4, 0.5, 0.5), (4.1, 0.5, 0.5)]

/-- Claim C5 witness: the 5th capture emits the signal and calibrates; a
full demonstration run emits the signal exactly once. -/
theorem C5_fifth_point_completes_witness :
    (calibOnBlink ((1 : ℚ)/2)
        ⟨false, [(0.3, 0.3), (0.7, 0.3), (0.7, 0.7), (0.3, 0.7)], 4, [(0 : ℚ)]⟩
        (1/10) (1/2, 1/2)).2.2 = true
    ∧ (calibOnBlink ((1 : ℚ)/2)
        ⟨false, [(0.3, 0.3), (0.7, 0.3), (0.7, 0.7), (0.3, 0.7)], 4, [(0 : ℚ)]⟩
        (1/10) (1/2, 1/2)).1.calibrated = true
    ∧ (calibRun ((1 : ℚ)/2) ⟨false, [], 0, []⟩ calibDemoEvents).2 = 1 := by
  have h := (C5_fifth_point_completes ((1 : ℚ)/2)).1
      ⟨false, [(0.3, 0.3), (0.7, 0.3), (0.7, 0.7), (0.3, 0.7)], 4, [(0 : ℚ)]⟩
      (1/10) (1/2, 1/2) rfl (by norm_num)
  have hsig : (calibOnBlink ((1 : ℚ)/2)
      ⟨false, [(0.3, 0.3), (0.7, 0.3), (0.7, 0.7), (0.3, 0.7)], 4, [(0 : ℚ)]⟩
      (1/10) (1/2, 1/2)).2.2 = true := by
    norm_num [calibOnBlink, appendTrim]
  refine ⟨hsig, h.2.1 hsig, ?_⟩
  have h4 := (C5_fifth_point_completes ((1 : ℚ)/2)).2.2.2
      ⟨false, [], 0, []⟩ calibDemoEvents rfl
  refine h4.mpr ?_
  norm_num [calibRun, calibProc, calibOnBlink, appendTrim, calibDemoEvents]

/-- Helper: the basic click update issues at most one command. -/
theorem ClickController.update_cmds (s : ClickController) (tp ip : ℤ × ℤ) :
    (s.update tp ip).2 = [Cmd.mouseDown] ∨ (s.update tp ip).2 = [Cmd.mouseUp]
    ∨ (s.update tp ip).2 = [] := by
  simp only [ClickController.update]
  split_ifs <;> simp

/-- Helper: the basic click update never scrolls. -/
theorem ClickController.update_no_scroll (s : ClickController) (tp ip : ℤ × ℤ)
    (v : ℤ) : Cmd.scroll v ∉ (s.update tp ip).2 := by
  rcases s.update_cmds tp ip with h | h | h <;> rw [h] <;> simp

/-- Helper: the basic click update only changes the `down` flag. -/
theorem ClickController.update_state (s : ClickController) (tp ip : ℤ × ℤ) :
    (s.update tp ip).1 =
      { s with down := hypotLt ((tp.1 - ip.1 : ℤ) : ℚ)
                          ((tp.2 - ip.2 : ℤ) : ℚ) s.thresh } := by
  simp only [ClickController.update]
  split_ifs <;> rfl

/-- Claim C6 (amended: the scroll amount is `int((currentY - lastY) * 100)`,
truncation toward zero — the code's `int(...)`, not `round(...)`): when the
normalized index/middle pinch distance is below `0.05` the controller is
in scroll mode; the first such frame only records the vertical midpoint
and emits no Scroll; each later scroll frame emits `Scroll (-amount)`
exactly when `|amount| > 1`, so the emitted sign is opposite to the
hand's vertical motion and downward hand motion scrolls down. -/
theorem C6_scroll_gesture (s : ClickController) (tp ip : ℤ × ℤ)
    (p8 p12 : ℚ × ℚ)
    (hp : hypotLt (p8.1 - p12.1) (p8.2 - p12.2) 0.05 = true) :
    (s.last_y = none →
      (s.update_with_landmarks tp ip p8 p12).1.last_y = some ((p8.2 + p12.2) / 2)
      ∧ (s.update_with_landmarks tp ip p8 p12).1.scroll_mode = true
      ∧ ∀ v, Cmd.scroll v ∉ (s.update_with_landmarks tp ip p8 p12).2)
    ∧ (∀ ly, s.last_y = some ly →
        (s.update_with_landmarks tp ip p8 p12).1.last_y = some ((p8.2 + p12.2) / 2)
        ∧ (s.update_with_landmarks tp ip p8 p12).1.scroll_mode = true
        ∧ (Cmd.scroll (-(pyInt (((p8.2 + p12.2) / 2 - ly) * 100)))
              ∈ (s.update_with_landmarks tp ip p8 p12).2
            ↔ 1 < |pyInt (((p8.2 + p12.2) / 2 - ly) * 100)|)
        ∧ (∀ v, Cmd.scroll v ∈ (s.update_with_landmarks tp ip p8 p12).2 →
            v = -(pyInt (((p8.2 + p12.2) / 2 - ly) * 100))
            ∧ (ly < (p8.2 + p12.2) / 2 → v < 0)
            ∧ ((p8.2 + p12.2) / 2 < ly → 0 < v))) := by
  have hsl : (s.update tp ip).1.last_y = s.last_y := by
    rw [ClickController.update_state]
  constructor
  · intro h
    rw [h] at hsl
    simp only [ClickController.update_with_landmarks, hp, if_true, hsl]
    refine ⟨trivial, trivial, ?_⟩
    intro v
    simp only [List.mem_append, not_or]
    refine ⟨ClickController.update_no_scroll s tp ip v, ?_⟩
    split <;> simp
  · intro ly h
    rw [h] at hsl
    simp only [ClickController.update_with_landmarks, hp, if_true, hsl]
    refine ⟨trivial, trivial, ?_, ?_⟩
    · by_cases hA : 1 < |pyInt (((p8.2 + p12.2) / 2 - ly) * 100)|
      · rw [if_pos hA]
        refine iff_of_true ?_ hA
        exact List.mem_append_left _ (List.mem_append_right _ (List.mem_singleton_self _))
      · rw [if_neg hA]
        refine iff_of_false ?_ hA
        intro hmem
        rcases List.mem_append.mp hmem with hmem | hmem
        · rcases List.mem_append.mp hmem with hmem | hmem
          · exact ClickController.update_no_scroll s tp ip _ hmem
          · simp at hmem
        · revert hmem
          split <;> simp
    · intro v hv
      have hv' : Cmd.scroll v ∈
          (if 1 < |pyInt (((p8.2 + p12.2) / 2 - ly) * 100)| then
            [Cmd.scroll (-(pyInt (((p8.2 + p12.2) / 2 - ly) * 100)))] else []) := by
        rcases List.mem_append.mp hv with hmem | hmem
        · rcases List.mem_append.mp hmem with hmem | hmem
          · exact absurd hmem (ClickController.update_no_scroll s tp ip v)
          · exact hmem
        · exfalso
          revert hmem
          split <;> simp
      by_cases hA : 1 < |pyInt (((p8.2 + p12.2) / 2 - ly) * 100)|
      · rw [if_pos hA] at hv'
        have hveq : v = -(pyInt (((p8.2 + p12.2) / 2 - ly) * 100)) := by
          simpa using hv'
        refine ⟨hveq, ?_, ?_⟩
        · intro hlt
          have h0 : (0 : ℚ) ≤ ((p8.2 + p12.2) / 2 - ly) * 100 := by
            have : (0 : ℚ) ≤ (p8.2 + p12.2) / 2 - ly := by linarith
            linarith
          have hnn := pyInt_nonneg h0
          rw [abs_of_nonneg hnn] at hA
          rw [hveq]
          omega
        · intro hgt
          have h0 : ((p8.2 + p12.2) / 2 - ly) * 100 ≤ 0 := by
            have : (p8.2 + p12.2) / 2 - ly ≤ 0 := by linarith
            linarith
          have hnp := pyInt_nonpos h0
          rw [abs_of_nonpos hnp] at hA
          rw [hveq]
          omega
      · rw [if_neg hA] at hv'
        simp at hv'

/-- Claim C6 witness: a first scroll frame records the midpoint and a
later scroll frame with midpoint `0.05` and last y `0` emits
`Scroll (-5)`. -/
theorem C6_scroll_gesture_witness :
    (ClickController.update_with_landmarks ClickController.initial
        (0, 0) (100, 0) (0.5, 0.5) (0.5, 0.5)).1.last_y = some (1/2)
    ∧ Cmd.scroll (-(5 : ℤ)) ∈ (ClickController.update_with_landmarks
        { down := false, thresh := 40, scroll_mode := true, last_y := some 0 }
        (0, 0) (100, 0) (0.5, 0.05) (0.5, 0.05)).2 := by
  constructor
  · have h1 := (C6_scroll_gesture ClickController.initial (0, 0) (100, 0)
        (0.5, 0.5) (0.5, 0.5) (by norm_num [hypotLt])).1 rfl
    rw [h1.1]
    norm_num
  · have h2 := (C6_scroll_gesture
        { down := false, thresh := 40, scroll_mode := true, last_y := some 0 }
        (0, 0) (100, 0) (0.5, 0.05) (0.5, 0.05) (by norm_num [hypotLt])).2
        0 rfl
    have hamt : pyInt ((((0.05 : ℚ) + 0.05) / 2 - 0) * 100) = 5 := by
      norm_num [pyInt, Int.floor_eq_iff]
    have h3 := h2.2.2.1.mpr (by rw [hamt]; norm_num)
    rw [hamt] at h3
    exact h3

/-- Claim C6 counterexample: with last y `0` and current midpoint
`0.019`, the code computes `int(1.9) = 1` and emits nothing, while the
claim's `round(1.9) = 2` passes the `|amount| > 1` gate and would emit:
the claim's rounding is wrong on the code. -/
theorem C6_scroll_counterexample :
    (ClickController.update_with_landmarks
        { down := false, thresh := 40, scroll_mode := true, last_y := some 0 }
        (0, 0) (100, 0) (1/2, 19/1000) (1/2, 19/1000)).2 = []
    ∧ 1 < |round ((((19 : ℚ)/1000 + 19/1000) / 2 - 0) * 100)| := by
  have hamt : pyInt ((19 : ℚ)/10) = 1 := by
    norm_num [pyInt, Int.floor_eq_iff]
  constructor
  · norm_num [ClickController.update_with_landmarks, ClickController.update,
      hypotLt, hamt]
  · norm_num [round_eq, Int.floor_eq_iff]

/-- Claim C7: with a single shared threshold, the frame on which the
thumb–index distance crosses below `thresh` issues exactly one
MouseDown, the frame crossing back issues exactly one MouseUp, and
nothing is issued while the distance stays on the same side; a
scroll-mode frame with the click flag set ends in a forced MouseUp with
the flag still set; the frame leaving scroll mode with the flag still
set issues a MouseDown to restore the held click. -/
theorem C7_click_edges_and_scroll_guard :
    (∀ (s : ClickController) (tp ip : ℤ × ℤ),
      s.update tp ip =
        ({ s with down := hypotLt ((tp.1 - ip.1 : ℤ) : ℚ)
                            ((tp.2 - ip.2 : ℤ) : ℚ) s.thresh },
         if hypotLt ((tp.1 - ip.1 : ℤ) : ℚ) ((tp.2 - ip.2 : ℤ) : ℚ) s.thresh = true
            ∧ s.down = false then [Cmd.mouseDown]
         else if hypotLt ((tp.1 - ip.1 : ℤ) : ℚ) ((tp.2 - ip.2 : ℤ) : ℚ) s.thresh = false
            ∧ s.down = true then [Cmd.mouseUp]
         else []))
    ∧ (∀ (s : ClickController) (tp ip : ℤ × ℤ) (p8 p12 : ℚ × ℚ),
        hypotLt (p8.1 - p12.1) (p8.2 - p12.2) 0.05 = true →
        (s.update tp ip).1.down = true →
        (s.update_with_landmarks tp ip p8 p12).2.getLast? = some Cmd.mouseUp
        ∧ (s.update_with_landmarks tp ip p8 p12).1.down = true)
    ∧ (∀ (s : ClickController) (tp ip : ℤ × ℤ) (p8 p12 : ℚ × ℚ),
        hypotLt (p8.1 - p12.1) (p8.2 - p12.2) 0.05 = false →
        s.scroll_mode = true →
        (s.update tp ip).1.down = true →
        Cmd.mouseDown ∈ (s.update_with_landmarks tp ip p8 p12).2
        ∧ (s.update_with_landmarks tp ip p8 p12).1.scroll_mode = false
        ∧ (s.update_with_landmarks tp ip p8 p12).1.last_y = none) := by
  refine ⟨?_, ?_, ?_⟩
  · intro s tp ip
    simp only [ClickController.update]
    split_ifs <;> rfl
  · intro s tp ip p8 p12 hp hdn
    simp only [ClickController.update_with_landmarks, hp, if_true]
    cases hly : (s.update tp ip).1.last_y with
    | none => simp [hdn, List.getLast?_concat]
    | some ly => simp [hdn, List.getLast?_concat]
  · intro s tp ip p8 p12 hp hsm hdn
    have hsm1 : (s.update tp ip).1.scroll_mode = true := by
      rw [ClickController.update_state]
      exact hsm
    simp [ClickController.update_with_landmarks, hp, hsm1, hdn]

/-- Claim C7 witness: a concrete held-click scroll frame and a concrete
scroll-exit frame. -/
theorem C7_click_edges_and_scroll_guard_witness :
    ((ClickController.update_with_landmarks
        { down := false, thresh := 40, scroll_mode := false, last_y := none }
        (0, 0) (5, 0) (0.5, 0.5) (0.5, 0.5)).2.getLast? = some Cmd.mouseUp)
    ∧ Cmd.mouseDown ∈ (ClickController.update_with_landmarks
        { down := true, thresh := 40, scroll_mode := true, last_y := some 0.5 }
        (0, 0) (5, 0) (0.5, 0.5) (0.9, 0.9)).2 := by
  constructor
  · exact ((C7_click_edges_and_scroll_guard).2.1
      { down := false, thresh := 40, scroll_mode := false, last_y := none }
      (0, 0) (5, 0) (0.5, 0.5) (0.5, 0.5) (by norm_num [hypotLt])
      (by norm_num [ClickController.update_state, hypotLt])).1
  · exact ((C7_click_edges_and_scroll_guard).2.2
      { down := true, thresh := 40, scroll_mode := true, last_y := some 0.5 }
      (0, 0) (5, 0) (0.5, 0.5) (0.9, 0.9) (by norm_num [hypotLt]) rfl
      (by norm_num [ClickController.update_state, hypotLt])).1

/-! ## Dwell-engine lemmas (for claim C2) -/

theorem dwellUpdate_none (cfg : EyeCfg) (s : EyeState) (now : ℝ) (t : ℤ × ℤ)
    (h : s.smoothed = none) :
    dwellUpdate cfg s now t =
      ({ s with smoothed := some t, dwellTs := now }, []) := by
  unfold dwellUpdate
  rw [h]

theorem dwellUpdate_settled (cfg : EyeCfg) (s : EyeState) (now : ℝ)
    (t sm : ℤ × ℤ) (h : s.smoothed = some sm)
    (hd : gazeDist sm t < cfg.moveThr) :
    dwellUpdate cfg s now t =
      (if now - s.dwellTs > cfg.dwell ∧ now - s.lastClick > cfg.dwell
       then ({ s with lastClick := now }, [Cmd.click]) else (s, [])) := by
  unfold dwellUpdate
  rw [h]
  dsimp only
  rw [if_pos hd]

theorem dwellUpdate_moving (cfg : EyeCfg) (s : EyeState) (now : ℝ)
    (t sm : ℤ × ℤ) (h : s.smoothed = some sm)
    (hd : ¬ gazeDist sm t < cfg.moveThr) :
    dwellUpdate cfg s now t =
      (let a := min 0.85 (max cfg.alpha (gazeDist sm t / 300))
       let sx := pyIntR (a * (t.1 : ℝ) + (1 - a) * (sm.1 : ℝ))
       let sy := pyIntR (a * (t.2 : ℝ) + (1 - a) * (sm.2 : ℝ))
       ({ s with dwellTs := now, smoothed := some (sx, sy) },
        [Cmd.moveTo sx sy])) := by
  unfold dwellUpdate
  rw [h]
  dsimp only
  rw [if_neg hd]

theorem dwellUpdate_click_iff (cfg : EyeCfg) (s : EyeState) (now : ℝ)
    (t : ℤ × ℤ) :
    (dwellUpdate cfg s now t).2 = [Cmd.click] ↔
      (∃ sm, s.smoothed = some sm ∧ gazeDist sm t < cfg.moveThr)
      ∧ now - s.dwellTs > cfg.dwell ∧ now - s.lastClick > cfg.dwell := by
  cases h : s.smoothed with
  | none =>
      rw [dwellUpdate_none cfg s now t h]
      simp
  | some sm =>
      by_cases hd : gazeDist sm t < cfg.moveThr
      · rw [dwellUpdate_settled cfg s now t sm h hd]
        by_cases hc : now - s.dwellTs > cfg.dwell ∧ now - s.lastClick > cfg.dwell
        · rw [if_pos hc]
          exact iff_of_true rfl ⟨⟨sm, rfl, hd⟩, hc⟩
        · rw [if_neg hc]
          refine iff_of_false (by simp) ?_
          rintro ⟨-, hc1, hc2⟩
          exact hc ⟨hc1, hc2⟩
      · rw [dwellUpdate_moving cfg s now t sm h hd]
        refine iff_of_false (by simp) ?_
        rintro ⟨⟨sm', hsm', hd'⟩, -⟩
        injection hsm' with e
        subst e
        exact hd hd'

theorem dwellUpdate_click_state (cfg : EyeCfg) (s : EyeState) (now : ℝ)
    (t : ℤ × ℤ) (h : (dwellUpdate cfg s now t).2 = [Cmd.click]) :
    (dwellUpdate cfg s now t).1 = { s with lastClick := now } := by
  rcases (dwellUpdate_click_iff cfg s now t).mp h with ⟨⟨sm, hsm, hd⟩, hc1, hc2⟩
  rw [dwellUpdate_settled cfg s now t sm hsm hd, if_pos ⟨hc1, hc2⟩]

theorem dwellUpdate_lastClick_cases (cfg : EyeCfg) (s : EyeState) (now : ℝ)
    (t : ℤ × ℤ) :
    (dwellUpdate cfg s now t).1.lastClick = s.lastClick
    ∨ (dwellUpdate cfg s now t).1.lastClick = now := by
  cases h : s.smoothed with
  | none =>
      rw [dwellUpdate_none cfg s now t h]
      left
      rfl
  | some sm =>
      by_cases hd : gazeDist sm t < cfg.moveThr
      · rw [dwellUpdate_settled cfg s now t sm h hd]
        split_ifs
        · right
          rfl
        · left
          rfl
      · rw [dwellUpdate_moving cfg s now t sm h hd]
        left
        rfl

theorem dwellUpdate_dwellTs_cases (cfg : EyeCfg) (s : EyeState) (now : ℝ)
    (t : ℤ × ℤ) :
    (dwellUpdate cfg s now t).1.dwellTs = now
    ∨ ((dwellUpdate cfg s now t).1.dwellTs = s.dwellTs
       ∧ ∃ sm, s.smoothed = some sm ∧ gazeDist sm t < cfg.moveThr) := by
  cases h : s.smoothed with
  | none =>
      rw [dwellUpdate_none cfg s now t h]
      left
      rfl
  | some sm =>
      by_cases hd : gazeDist sm t < cfg.moveThr
      · rw [dwellUpdate_settled cfg s now t sm h hd]
        right
        refine ⟨?_, sm, rfl, hd⟩
        split_ifs <;> rfl
      · rw [dwellUpdate_moving cfg s now t sm h hd]
        left
        rfl

/-- Helper: every dwell click happens more than `dwell` after the dwell
timer was last restarted, with every intervening frame settled. -/
theorem dwellRun_click_history (cfg : EyeCfg) :
    ∀ (fs : List (ℝ × ℤ × ℤ)) (s : EyeState)
      (l₁ : List (EyeState × (ℝ × ℤ × ℤ) × List Cmd)) (si : EyeState)
      (fi : ℝ × ℤ × ℤ) (l₂ : List (EyeState × (ℝ × ℤ × ℤ) × List Cmd)),
      dwellRun cfg s fs = l₁ ++ (si, fi, [Cmd.click]) :: l₂ →
      fi.1 - si.dwellTs > cfg.dwell
      ∧ (∃ sm, si.smoothed = some sm ∧ gazeDist sm fi.2 < cfg.moveThr)
      ∧ ((si.dwellTs = s.dwellTs ∧ ∀ e ∈ l₁, SettledStep cfg e)
         ∨ ∃ l₃ ej l₄, l₁ = l₃ ++ ej :: l₄ ∧ si.dwellTs = ej.2.1.1
             ∧ ∀ e ∈ l₄, SettledStep cfg e) := by
  intro fs
  induction fs with
  | nil =>
      intro s l₁ si fi l₂ h
      rw [dwellRun] at h
      exact absurd h (by simp)
  | cons f fs ih =>
      intro s l₁ si fi l₂ h
      rw [dwellRun] at h
      cases l₁ with
      | nil =>
          simp only [List.nil_append] at h
          injection h with h1 h2
          have hs : s = si := congrArg Prod.fst h1
          have hf : f = fi := congrArg (fun p => p.2.1) h1
          have ho : (dwellUpdate cfg s f.1 f.2).2 = [Cmd.click] :=
            congrArg (fun p => p.2.2) h1
          subst hs
          subst hf
          rcases (dwellUpdate_click_iff cfg s f.1 f.2).mp ho with
            ⟨⟨sm, hsm, hd⟩, hc1, hc2⟩
          exact ⟨hc1, ⟨sm, hsm, hd⟩, Or.inl ⟨rfl, by simp⟩⟩
      | cons e l₁' =>
          rw [List.cons_append] at h
          injection h with h1 h2
          subst h1
          have hrec := ih (dwellUpdate cfg s f.1 f.2).1 l₁' si fi l₂ h2
          refine ⟨hrec.1, hrec.2.1, ?_⟩
          rcases hrec.2.2 with ⟨hts, hall⟩ | ⟨l₃, ej, l₄, hsplit, hts, hall⟩
          · rcases dwellUpdate_dwellTs_cases cfg s f.1 f.2 with
              hnow | ⟨hkeep, hsettled⟩
            · right
              exact ⟨[], (s, f, (dwellUpdate cfg s f.1 f.2).2), l₁', by simp,
                by rw [hts, hnow], hall⟩
            · left
              refine ⟨by rw [hts, hkeep], ?_⟩
              intro x hx
              rcases List.mem_cons.mp hx with rfl | hx
              · exact hsettled
              · exact hall x hx
          · right
            exact ⟨(s, f, (dwellUpdate cfg s f.1 f.2).2) :: l₃, ej, l₄,
              by simp [hsplit], hts, hall⟩

/-- Helper: if every frame time is at least `c` and the incoming
`last_click` is at least `c`, any dwell click in the run happens more
than `dwell` after `c`. -/
theorem dwellRun_click_lastClick_bound (cfg : EyeCfg) (c : ℝ) :
    ∀ (fs : List (ℝ × ℤ × ℤ)) (s : EyeState)
      (l₂ : List (EyeState × (ℝ × ℤ × ℤ) × List Cmd)) (s2 : EyeState)
      (f2 : ℝ × ℤ × ℤ) (l₃ : List (EyeState × (ℝ × ℤ × ℤ) × List Cmd)),
      (∀ f ∈ fs, c ≤ f.1) → c ≤ s.lastClick →
      dwellRun cfg s fs = l₂ ++ (s2, f2, [Cmd.click]) :: l₃ →
      f2.1 - c > cfg.dwell := by
  intro fs
  induction fs with
  | nil =>
      intro s l₂ s2 f2 l₃ _ _ h
      rw [dwellRun] at h
      exact absurd h (by simp)
  | cons f fs ih =>
      intro s l₂ s2 f2 l₃ hts hc h
      rw [dwellRun] at h
      cases l₂ with
      | nil =>
          simp only [List.nil_append] at h
          injection h with h1 h2
          have hf : f = f2 := congrArg (fun p => p.2.1) h1
          have ho : (dwellUpdate cfg s f.1 f.2).2 = [Cmd.click] :=
            congrArg (fun p => p.2.2) h1
          rcases (dwellUpdate_click_iff cfg s f.1 f.2).mp ho with ⟨-, -, hc2⟩
          rw [← hf]
          linarith
      | cons e l₂' =>
          rw [List.cons_append] at h
          injection h with h1 h2
          refine ih (dwellUpdate cfg s f.1 f.2).1 l₂' s2 f2 l₃ ?_ ?_ h2
          · intro g hg
            exact hts g (List.mem_cons_of_mem f hg)
          · rcases dwellUpdate_lastClick_cases cfg s f.1 f.2 with hl | hl
            · rw [hl]
              exact hc
            · rw [hl]
              exact hts f (List.mem_cons_self f fs)

/-- Helper: two dwell clicks in one chronological run are more than
`dwell` apart. -/
theorem dwellRun_clicks_separated (cfg : EyeCfg) :
    ∀ (fs : List (ℝ × ℤ × ℤ)) (s : EyeState),
      List.Pairwise (fun a b => a ≤ b) (fs.map (fun f => f.1)) →
      ∀ (l₁ : List (EyeState × (ℝ × ℤ × ℤ) × List Cmd)) (s1 : EyeState)
        (f1 : ℝ × ℤ × ℤ) (l₂ : List (EyeState × (ℝ × ℤ × ℤ) × List Cmd))
        (s2 : EyeState) (f2 : ℝ × ℤ × ℤ)
        (l₃ : List (EyeState × (ℝ × ℤ × ℤ) × List Cmd)),
        dwellRun cfg s fs =
          l₁ ++ (s1, f1, [Cmd.click]) :: (l₂ ++ (s2, f2, [Cmd.click]) :: l₃) →
        f2.1 - f1.1 > cfg.dwell := by
  intro fs
  induction fs with
  | nil =>
      intro s _ l₁ s1 f1 l₂ s2 f2 l₃ h
      rw [dwellRun] at h
      exact absurd h (by simp)
  | cons f fs ih =>
      intro s hp l₁ s1 f1 l₂ s2 f2 l₃ h
      rw [dwellRun] at h
      rw [List.map_cons, List.pairwise_cons] at hp
      cases l₁ with
      | nil =>
          simp only [List.nil_append] at h
          injection h with h1 h2
          have hf : f = f1 := congrArg (fun p => p.2.1) h1
          have ho : (dwellUpdate cfg s f.1 f.2).2 = [Cmd.click] :=
            congrArg (fun p => p.2.2) h1
          have hstate := dwellUpdate_click_state cfg s f.1 f.2 ho
          rw [← hf]
          refine dwellRun_click_lastClick_bound cfg f.1 fs
            (dwellUpdate cfg s f.1 f.2).1 l₂ s2 f2 l₃ ?_ ?_ h2
          · intro g hg
            exact hp.1 g.1 (List.mem_map_of_mem _ hg)
          · rw [hstate]
      | cons e l₁' =>
          rw [List.cons_append] at h
          injection h with h1 h2
          exact ih (dwellUpdate cfg s f.1 f.2).1 hp.2 l₁' s1 f1 l₂ s2 f2 l₃ h2

/-- Claim C2 (amended: the new smoothed coordinates are the integer
truncations — the code's `int(...)` — of `α·target + (1-α)·smoothed` per
axis): per calibrated, post-blink-guard frame, a missing smoothed
position is initialized to the target with the dwell timer started and
no command; with distance `d` from smoothed to target, `d < move_thr`
freezes the smoothed position and clicks exactly when more than `dwell`
elapsed both since dwell-start and since the last click; `d ≥ move_thr`
restarts the dwell timer, forms `α = clamp(d/300, alpha, 0.85)`, updates
the smoothed position and issues a Move to it.  Consequently a dwell
click fires only after the distance stayed below `move_thr` at every
frame since the dwell timer was set, more than `dwell` earlier, and two
dwell clicks in a chronological run are more than `dwell` apart. -/
theorem C2_dwell_engine (cfg : EyeCfg) :
    (∀ (s : EyeState) (now : ℝ) (t : ℤ × ℤ), s.smoothed = none →
      dwellUpdate cfg s now t =
        ({ s with smoothed := some t, dwellTs := now }, []))
    ∧ (∀ (s : EyeState) (now : ℝ) (t sm : ℤ × ℤ), s.smoothed = some sm →
        gazeDist sm t < cfg.moveThr →
        dwellUpdate cfg s now t =
          (if now - s.dwellTs > cfg.dwell ∧ now - s.lastClick > cfg.dwell
           then ({ s with lastClick := now }, [Cmd.click]) else (s, [])))
    ∧ (∀ (s : EyeState) (now : ℝ) (t sm : ℤ × ℤ), s.smoothed = some sm →
        cfg.moveThr ≤ gazeDist sm t →
        dwellUpdate cfg s now t =
          (let a := min 0.85 (max cfg.alpha (gazeDist sm t / 300))
           let sx := pyIntR (a * (t.1 : ℝ) + (1 - a) * (sm.1 : ℝ))
           let sy := pyIntR (a * (t.2 : ℝ) + (1 - a) * (sm.2 : ℝ))
           ({ s with dwellTs := now, smoothed := some (sx, sy) },
            [Cmd.moveTo sx sy])))
    ∧ (∀ (fs : List (ℝ × ℤ × ℤ)) (s : EyeState)
        (l₁ : List (EyeState × (ℝ × ℤ × ℤ) × List Cmd)) (si : EyeState)
        (fi : ℝ × ℤ × ℤ) (l₂ : List (EyeState × (ℝ × ℤ × ℤ) × List Cmd)),
        dwellRun cfg s fs = l₁ ++ (si, fi, [Cmd.click]) :: l₂ →
        fi.1 - si.dwellTs > cfg.dwell
        ∧ (∃ sm, si.smoothed = some sm ∧ gazeDist sm fi.2 < cfg.moveThr)
        ∧ ((si.dwellTs = s.dwellTs ∧ ∀ e ∈ l₁, SettledStep cfg e)
           ∨ ∃ l₃ ej l₄, l₁ = l₃ ++ ej :: l₄ ∧ si.dwellTs = ej.2.1.1
               ∧ ∀ e ∈ l₄, SettledStep cfg e))
    ∧ (∀ (fs : List (ℝ × ℤ × ℤ)) (s : EyeState),
        List.Pairwise (fun a b => a ≤ b) (fs.map (fun f => f.1)) →
        ∀ (l₁ : List (EyeState × (ℝ × ℤ × ℤ) × List Cmd)) (s1 : EyeState)
          (f1 : ℝ × ℤ × ℤ) (l₂ : List (EyeState × (ℝ × ℤ × ℤ) × List Cmd))
          (s2 : EyeState) (f2 : ℝ × ℤ × ℤ)
          (l₃ : List (EyeState × (ℝ × ℤ × ℤ) × List Cmd)),
          dwellRun cfg s fs =
            l₁ ++ (s1, f1, [Cmd.click]) :: (l₂ ++ (s2, f2, [Cmd.click]) :: l₃) →
          f2.1 - f1.1 > cfg.dwell) := by
  refine ⟨fun s now t h => dwellUpdate_none cfg s now t h,
    fun s now t sm h hd => dwellUpdate_settled cfg s now t sm h hd,
    fun s now t sm h hd =>
      dwellUpdate_moving cfg s now t sm h (not_lt.mpr hd),
    fun fs s l₁ si fi l₂ h => dwellRun_click_history cfg fs s l₁ si fi l₂ h,
    fun fs s hp l₁ s1 f1 l₂ s2 f2 l₃ h =>
      dwellRun_clicks_separated cfg fs s hp l₁ s1 f1 l₂ s2 f2 l₃ h⟩

/-- Euclidean distance from the origin to itself is zero. -/
theorem gazeDist_zero : gazeDist (0, 0) (0, 0) = 0 := by
  show Real.sqrt ((((0 - 0) * (0 - 0) + (0 - 0) * (0 - 0) : ℤ) : ℝ)) = 0
  norm_num

/-- Euclidean distance from the origin to `(30, 40)` is `50`. -/
theorem gazeDist_origin_3040 : gazeDist (0, 0) (30, 40) = 50 := by
  show Real.sqrt ((((30 - 0) * (30 - 0) + (40 - 0) * (40 - 0) : ℤ) : ℝ)) = 50
  rw [show ((((30 - 0) * (30 - 0) + (40 - 0) * (40 - 0) : ℤ) : ℝ)) = 50 ^ 2 by
    norm_num]
  exact Real.sqrt_sq (by norm_num)

/-- Euclidean distance from the origin to `(25, 0)` is `25`. -/
theorem gazeDist_origin_250 : gazeDist (0, 0) (25, 0) = 25 := by
  show Real.sqrt ((((25 - 0) * (25 - 0) + (0 - 0) * (0 - 0) : ℤ) : ℝ)) = 25
  rw [show ((((25 - 0) * (25 - 0) + (0 - 0) * (0 - 0) : ℤ) : ℝ)) = 25 ^ 2 by
    norm_num]
  exact Real.sqrt_sq (by norm_num)

/-- The eye pipeline configuration from `__init__` with a 1920×1080
screen. -/
def cfg0 : EyeCfg :=
  { blinkThresh := 0.21, doubleWindow := 0.5, ignoreAfterBlink := 0.3,
    moveThr := 20, alpha := 0.3, dwell := 1, screenW := 1920, screenH := 1080 }

/-- A completed calibration with the spec's example corner points. -/
def calibDone : CalibState ℝ :=
  { calibrated := true,
    points := [(0.3, 0.3), (0.7, 0.3), (0.7, 0.7), (0.3, 0.7), (0.5, 0.5)],
    step := 5, blinkTimes := [] }

/-- A calibrated state with no smoothed position yet. -/
def sNone : EyeState :=
  { calib := calibDone, isBlinking := false, lastBlink := -1,
    smoothed := none, dwellTs := 0, lastClick := 0 }

/-- A calibrated state with smoothed position at the origin. -/
def sOrigin : EyeState :=
  { calib := calibDone, isBlinking := false, lastBlink := -1,
    smoothed := some (0, 0), dwellTs := 0, lastClick := 0 }

/-- Claim C2 witness: concrete frames exercising initialization, a
settled dwell click (target at the smoothed origin), a moving update
(target `(30,40)`, distance `50`, α `0.3`), a click-history instance and
a two-click separation instance. -/
theorem C2_dwell_engine_witness :
    dwellUpdate cfg0 sNone 1 (5, 5) =
      ({ sNone with smoothed := some (5, 5), dwellTs := 1 }, [])
    ∧ dwellUpdate cfg0 sOrigin 2 (0, 0) =
      ({ sOrigin with lastClick := 2 }, [Cmd.click])
    ∧ dwellUpdate cfg0 sOrigin 1 (30, 40) =
      ({ sOrigin with dwellTs := 1, smoothed := some (9, 12) },
       [Cmd.moveTo 9 12])
    ∧ ((2 : ℝ) - sOrigin.dwellTs > cfg0.dwell)
    ∧ ((7/2 : ℝ) - 2 > cfg0.dwell) := by
  have h1 := (C2_dwell_engine cfg0).1 sNone 1 (5, 5) rfl
  have h2 := (C2_dwell_engine cfg0).2.1 sOrigin 2 (0, 0) (0, 0) rfl
    (by rw [gazeDist_zero]; norm_num [cfg0])
  have h2full : dwellUpdate cfg0 sOrigin 2 (0, 0) =
      ({ sOrigin with lastClick := 2 }, [Cmd.click]) := by
    rw [h2, if_pos]
    constructor <;> norm_num [sOrigin, cfg0]
  have h3 := (C2_dwell_engine cfg0).2.2.1 sOrigin 1 (30, 40) (0, 0) rfl
    (by rw [gazeDist_origin_3040]; norm_num [cfg0])
  have h3full : dwellUpdate cfg0 sOrigin 1 (30, 40) =
      ({ sOrigin with dwellTs := 1, smoothed := some (9, 12) },
       [Cmd.moveTo 9 12]) := by
    rw [h3, gazeDist_origin_3040]
    have ha : min (0.85 : ℝ) (max cfg0.alpha (50 / 300)) = 0.3 := by
      rw [show cfg0.alpha = (0.3 : ℝ) from rfl]
      rw [max_eq_left (by norm_num), min_eq_right (by norm_num)]
    rw [ha]
    have hsx : pyIntR ((0.3 : ℝ) * ((30 : ℤ) : ℝ) + (1 - 0.3) * ((0 : ℤ) : ℝ)) = 9 := by
      rw [show (0.3 : ℝ) * ((30 : ℤ) : ℝ) + (1 - 0.3) * ((0 : ℤ) : ℝ) = 9 by
        push_cast; ring]
      rw [show (9 : ℝ) = ((9 : ℤ) : ℝ) by push_cast; ring]
      unfold pyIntR
      rw [if_pos (by norm_num), Int.floor_intCast]
    have hsy : pyIntR ((0.3 : ℝ) * ((40 : ℤ) : ℝ) + (1 - 0.3) * ((0 : ℤ) : ℝ)) = 12 := by
      rw [show (0.3 : ℝ) * ((40 : ℤ) : ℝ) + (1 - 0.3) * ((0 : ℤ) : ℝ) = 12 by
        push_cast; ring]
      rw [show (12 : ℝ) = ((12 : ℤ) : ℝ) by push_cast; ring]
      unfold pyIntR
      rw [if_pos (by norm_num), Int.floor_intCast]
    simp only [hsx, hsy]
  have hrun1 : dwellRun cfg0 sOrigin [(2, (0, 0))] =
      [(sOrigin, (2, (0, 0)), [Cmd.click])] := by
    simp only [dwellRun, h2full]
  have h4 := ((C2_dwell_engine cfg0).2.2.2.1 [(2, (0, 0))] sOrigin []
    sOrigin (2, (0, 0)) [] (by simpa only [List.nil_append] using hrun1)).1
  have h2b := (C2_dwell_engine cfg0).2.1 { sOrigin with lastClick := 2 }
    (7/2) (0, 0) (0, 0) rfl (by rw [gazeDist_zero]; norm_num [cfg0])
  have h2bfull : dwellUpdate cfg0 { sOrigin with lastClick := 2 } (7/2) (0, 0) =
      ({ sOrigin with lastClick := (7/2 : ℝ) }, [Cmd.click]) := by
    rw [h2b, if_pos]
    constructor <;> norm_num [sOrigin, cfg0]
  have hrun2 : dwellRun cfg0 sOrigin [(2, (0, 0)), (7/2, (0, 0))] =
      [(sOrigin, (2, (0, 0)), [Cmd.click]),
       ({ sOrigin with lastClick := 2 }, (7/2, (0, 0)), [Cmd.click])] := by
    simp only [dwellRun, h2full, h2bfull]
  have h5 := (C2_dwell_engine cfg0).2.2.2.2 [(2, (0, 0)), (7/2, (0, 0))] sOrigin
    (by norm_num [List.pairwise_cons]) [] sOrigin (2, (0, 0)) []
    ({ sOrigin with lastClick := 2 }) (7/2, (0, 0)) []
    (by simpa only [List.nil_append] using hrun2)
  exact ⟨h1, h2full, h3full, h4, h5⟩

/-- Claim C2 counterexample: at smoothed `(0,0)`, target `(25,0)` the
distance is `25 ≥ 20`, the claim's `α` is `0.3`, and the code stores
`int(0.3·25 + 0.7·0) = int(7.5) = 7`, which differs from the exact
`α·target + (1-α)·smoothed = 7.5` the claim states: the claim omits the
integer truncation. -/
theorem C2_smoothing_counterexample :
    (dwellUpdate cfg0 sOrigin 1 (25, 0)).1.smoothed = some (7, 0)
    ∧ ((7 : ℝ) ≠
        min 0.85 (max cfg0.alpha (gazeDist (0, 0) (25, 0) / 300)) * 25
        + (1 - min 0.85 (max cfg0.alpha (gazeDist (0, 0) (25, 0) / 300))) * 0) := by
  have ha : min (0.85 : ℝ) (max cfg0.alpha (gazeDist (0, 0) (25, 0) / 300)) = 0.3 := by
    rw [gazeDist_origin_250, show cfg0.alpha = (0.3 : ℝ) from rfl]
    rw [max_eq_left (by norm_num), min_eq_right (by norm_num)]
  constructor
  · have h := dwellUpdate_moving cfg0 sOrigin 1 (25, 0) (0, 0) rfl
      (by rw [gazeDist_origin_250]; norm_num [cfg0])
    rw [h, gazeDist_origin_250]
    have ha' : min (0.85 : ℝ) (max cfg0.alpha (50 / 300)) = 0.3 := by
      rw [show cfg0.alpha = (0.3 : ℝ) from rfl]
      rw [max_eq_left (by norm_num), min_eq_right (by norm_num)]
    have ha250 : min (0.85 : ℝ) (max cfg0.alpha ((25 : ℝ) / 300)) = 0.3 := by
      rw [show cfg0.alpha = (0.3 : ℝ) from rfl]
      rw [max_eq_left (by norm_num), min_eq_right (by norm_num)]
    rw [ha250]
    have hsx : pyIntR ((0.3 : ℝ) * ((25 : ℤ) : ℝ) + (1 - 0.3) * ((0 : ℤ) : ℝ)) = 7 := by
      rw [show (0.3 : ℝ) * ((25 : ℤ) : ℝ) + (1 - 0.3) * ((0 : ℤ) : ℝ) = 7.5 by
        push_cast; ring]
      unfold pyIntR
      rw [if_pos (by norm_num)]
      rw [Int.floor_eq_iff]
      norm_num
    have hsy : pyIntR ((0.3 : ℝ) * ((0 : ℤ) : ℝ) + (1 - 0.3) * ((0 : ℤ) : ℝ)) = 0 := by
      rw [show (0.3 : ℝ) * ((0 : ℤ) : ℝ) + (1 - 0.3) * ((0 : ℤ) : ℝ) = 0 by
        push_cast; ring]
      unfold pyIntR
      rw [if_pos le_rfl]
      exact Int.floor_zero
    simp only [hsx, hsy]
  · rw [ha]
    norm_num

/-- Claim C8: on a tick with no hand detected the controller is driven
with the synthetic maximally-open pose `(0,0)/(9999,9999)`, so with the
fixed threshold `40` the click flag always resolves to released and a
MouseUp is issued exactly when the flag was previously set. -/
theorem C8_no_hand_failsafe (s : ClickController) (h : s.thresh = 40) :
    noHandTick s = ({ s with down := false },
      if s.down then [Cmd.mouseUp] else []) := by
  have hd : hypotLt (-9999 : ℚ) (-9999 : ℚ) (40 : ℚ) = false := by
    simp only [hypotLt, decide_eq_false_iff_not, not_lt]
    norm_num
  cases hs : s.down <;>
    simp [noHandTick, ClickController.update, h, hs, hd]

/-- Claim C8 witness: a held click is released on a no-hand tick. -/
theorem C8_no_hand_failsafe_witness :
    noHandTick { down := true, thresh := 40, scroll_mode := false, last_y := none } =
      ({ down := false, thresh := 40, scroll_mode := false, last_y := none },
       [Cmd.mouseUp]) := by
  have h := C8_no_hand_failsafe
    { down := true, thresh := 40, scroll_mode := false, last_y := none } rfl
  simpa using h

/-! ## Eye-frame lemmas (for claim C10) -/

/-- Helper: a calibrated falling-edge blink frame: the blink click fires
and the `ignore_after_blink` guard (with `last_blink := now`) skips the
dwell engine. -/
theorem eyeUpdate_blink_click (cfg : EyeCfg) (s : EyeState) (now ear : ℝ)
    (iris : ℚ × ℚ) (hcal : s.calib.calibrated = true) (hb : s.isBlinking = true)
    (hear : cfg.blinkThresh ≤ ear) (hig : 0 ≤ cfg.ignoreAfterBlink) :
    eyeUpdate cfg s now ear iris =
      ({ s with isBlinking := false, lastBlink := now }, [Cmd.click], false) := by
  have hbr : blinkStep cfg.blinkThresh s.isBlinking ear = (false, true) := by
    rw [hb]
    simp [blinkStep, hear, not_lt.mpr hear]
  have hg : ¬ (now - now > cfg.ignoreAfterBlink) := by
    rw [sub_self]
    exact not_lt.mpr hig
  simp [eyeUpdate, hbr, hcal, hg]
  intro hneg
  exact absurd hneg (not_lt.mpr hig)

/-- Helper: a calibrated rising-edge frame (entering a blink) with the
dwell guard closed: only the blink flag changes. -/
theorem eyeUpdate_enter_blink (cfg : EyeCfg) (s : EyeState) (now ear : ℝ)
    (iris : ℚ × ℚ) (hb : s.isBlinking = false) (hear : ear < cfg.blinkThresh)
    (hg : ¬ (now - s.lastBlink > cfg.ignoreAfterBlink)) :
    eyeUpdate cfg s now ear iris = ({ s with isBlinking := true }, [], false) := by
  have hbr : blinkStep cfg.blinkThresh s.isBlinking ear = (true, false) := by
    rw [hb]
    simp [blinkStep, hear]
  simp [eyeUpdate, hbr, hg]

/-- A calibrated state mid-blink, used to exhibit blink clicks. -/
def sBlink : EyeState :=
  { calib := calibDone, isBlinking := true, lastBlink := -1,
    smoothed := some (0, 0), dwellTs := 0, lastClick := 0 }

/-- Claim C10: once calibrated every falling-edge blink transition
immediately issues a Click, independent of the dwell engine — no
settling required, and `last_click`, `dwell_ts` and the smoothed
position are untouched — so blink clicks can repeat faster than once per
dwell duration: here two blink clicks 0.2 s apart under a 1 s dwell. -/
theorem C10_blink_click (cfg : EyeCfg) (s : EyeState) (now ear : ℝ)
    (iris : ℚ × ℚ) (hcal : s.calib.calibrated = true) (hb : s.isBlinking = true)
    (hear : cfg.blinkThresh ≤ ear) (hig : 0 ≤ cfg.ignoreAfterBlink) :
    (eyeUpdate cfg s now ear iris).2.1 = [Cmd.click]
    ∧ (eyeUpdate cfg s now ear iris).1.lastClick = s.lastClick
    ∧ (eyeUpdate cfg s now ear iris).1.dwellTs = s.dwellTs
    ∧ (eyeUpdate cfg s now ear iris).1.smoothed = s.smoothed
    ∧ ((eyeUpdate cfg0 sBlink 0 0.25 (0.5, 0.5)).2.1 = [Cmd.click]
       ∧ (eyeUpdate cfg0 ((eyeUpdate cfg0
            ((eyeUpdate cfg0 sBlink 0 0.25 (0.5, 0.5)).1)
            0.1 0.15 (0.5, 0.5)).1) 0.2 0.25 (0.5, 0.5)).2.1 = [Cmd.click]
       ∧ (0.2 : ℝ) - 0 < cfg0.dwell) := by
  have key := eyeUpdate_blink_click cfg s now ear iris hcal hb hear hig
  have hu0 : eyeUpdate cfg0 sBlink 0 0.25 (0.5, 0.5) =
      ({ sBlink with isBlinking := false, lastBlink := 0 }, [Cmd.click], false) :=
    eyeUpdate_blink_click cfg0 sBlink 0 0.25 (0.5, 0.5) rfl rfl
      (by norm_num [cfg0]) (by norm_num [cfg0])
  have hu1 : eyeUpdate cfg0 { sBlink with isBlinking := false, lastBlink := 0 }
      0.1 0.15 (0.5, 0.5) =
      ({ sBlink with isBlinking := true, lastBlink := 0 }, [], false) := by
    have h := eyeUpdate_enter_blink cfg0
      { sBlink with isBlinking := false, lastBlink := 0 } 0.1 0.15 (0.5, 0.5)
      rfl (by norm_num [cfg0]) (by norm_num [cfg0])
    exact h
  have hu2 : eyeUpdate cfg0 { sBlink with isBlinking := true, lastBlink := 0 }
      0.2 0.25 (0.5, 0.5) =
      ({ sBlink with isBlinking := false, lastBlink := 0.2 }, [Cmd.click], false) := by
    have h := eyeUpdate_blink_click cfg0
      { sBlink with isBlinking := true, lastBlink := 0 } 0.2 0.25 (0.5, 0.5)
      rfl rfl (by norm_num [cfg0]) (by norm_num [cfg0])
    exact h
  refine ⟨by rw [key], by rw [key], by rw [key], by rw [key], ?_, ?_, ?_⟩
  · rw [hu0]
  · rw [hu0, hu1, hu2]
  · norm_num [cfg0]

/-- Claim C10 witness: the first demo frame, via the theorem. -/
theorem C10_blink_click_witness :
    (eyeUpdate cfg0 sBlink 0 0.25 (0.5, 0.5)).2.1 = [Cmd.click] :=
  (C10_blink_click cfg0 sBlink 0 0.25 (0.5, 0.5) rfl rfl
    (by norm_num [cfg0]) (by norm_num [cfg0])).1

end DavisHacks
